import Mathlib

/-!
Shallow embedding of `src/streamlit_app.py`: a BLS labor-statistics dashboard.
The pipeline is: API status check → flatten the nested series/observation JSON
into rows (keeping only periods lexically between "M01" and "M12") → transform
(derive integer month, coerce value to numeric, build a year-month label, sort
by series/year/month) → presenter (filter by selected series, summary metrics,
rolling average).

Strings are compared the way Python compares `str` (code-point lexicographic),
so we define the comparison explicitly on the character lists.
-/

namespace BLS

/-! ### JSON data model (shape expected from the BLS API)

A footnote is modelled as `Option String`: `some t` when the footnote object is
non-empty and carries a `text` field (the condition `foot and 'text' in foot`
on line 44 of the source), `none` otherwise. -/

structure Item where
  year : String
  period : String
  value : String
  footnotes : List (Option String)
deriving Repr, DecidableEq

structure SeriesData where
  seriesID : String
  data : List Item
deriving Repr, DecidableEq

structure Response where
  status : String
  message : Option String
  series : List SeriesData
deriving Repr, DecidableEq

/-! ### String primitives with Python semantics -/

/-- Python string `<=`: code-point lexicographic on the character lists. -/
def charListLe : List Char → List Char → Bool
  | [], _ => true
  | _ :: _, [] => false
  | a :: as, b :: bs => if a = b then charListLe as bs else decide (a < b)

/-- `a <= b` on strings, as Python compares `str`. -/
def strLe (a b : String) : Bool := charListLe a.data b.data

/-- `s.replace('M', '')`: removes every occurrence of the character `M`. -/
def stripM (s : String) : String := ⟨s.data.filter (fun c => c ≠ 'M')⟩

/-- Accumulating decimal-digit parser: `none` as soon as a non-digit appears. -/
def digitsAcc : Nat → List Char → Option Nat
  | acc, [] => some acc
  | acc, c :: cs => if c.isDigit then digitsAcc (10 * acc + (c.toNat - 48)) cs else none

/-- Python `int(s)` (as used by `.astype(int)`): optional sign, then a
non-empty run of decimal digits. -/
def parseIntPy (s : String) : Option Int :=
  match s.data with
  | [] => none
  | c :: cs =>
    if c = '-' then
      if cs.isEmpty then none else (digitsAcc 0 cs).map (fun n => -(n : Int))
    else if c = '+' then
      if cs.isEmpty then none else (digitsAcc 0 cs).map (fun n => (n : Int))
    else (digitsAcc 0 (c :: cs)).map (fun n => (n : Int))

/-- Split a character list at the first `'.'` (decimal point). -/
def splitOnDot : List Char → List Char × Option (List Char)
  | [] => ([], none)
  | '.' :: cs => ([], some cs)
  | c :: cs => let p := splitOnDot cs; (c :: p.1, p.2)

/-- `pd.to_numeric(·, errors='coerce')` on one cell: parse an optionally signed
decimal numeral (integer part, optional fractional part, at least one digit);
anything unparseable becomes the missing marker `none` (NaN). -/
def toNumeric? (s : String) : Option ℚ :=
  let core : List Char → Option ℚ := fun cs =>
    match splitOnDot cs with
    | (ip, none) =>
      if ip.isEmpty then none else (digitsAcc 0 ip).map (fun n => (n : ℚ))
    | (ip, some fp) =>
      if ip.isEmpty ∧ fp.isEmpty then none
      else
        match digitsAcc 0 ip, digitsAcc 0 fp with
        | some a, some b => some ((a : ℚ) + (b : ℚ) / (10 : ℚ) ^ fp.length)
        | _, _ => none
  match s.data with
  | '-' :: cs => (core cs).map (fun q => -q)
  | '+' :: cs => core cs
  | cs => core cs

/-! ### Normalizer (source lines 36–59) -/

/-- One row of the flattened table (`bls_list` entry / CSV record). -/
structure Row where
  seriesId : String
  year : String
  period : String
  value : String
  footnotes : String
deriving Repr, DecidableEq

/-- Line 45: join the collected footnote texts with `", "`. -/
def joinFootnotes (fs : List (Option String)) : String :=
  String.intercalate ", " (fs.filterMap id)

/-- Line 47: `"M01" <= period <= "M12"` with Python string comparison. -/
def keepPeriod (p : String) : Bool := strLe "M01" p && strLe p "M12"

/-- The row appended to `bls_list` for one observation (line 48). -/
def mkRow (sid : String) (it : Item) : Row :=
  ⟨sid, it.year, it.period, it.value, joinFootnotes it.footnotes⟩

/-- Lines 40–48: the rows one series contributes to `bls_list`, in data order. -/
def flattenSeries (s : SeriesData) : List Row :=
  s.data.filterMap (fun it => if keepPeriod it.period then some (mkRow s.seriesID it) else none)

/-- Lines 37–48: the whole flattened table, series in response order. -/
def flatten (r : Response) : List Row :=
  (r.series.map flattenSeries).flatten

/-- Line 59: the data records of `bls_data.csv` (header excluded), one field
list per flattened row. -/
def csvDataRecords (rows : List Row) : List (List String) :=
  rows.map (fun r => [r.seriesId, r.year, r.period, r.value, r.footnotes])

/-! ### Transformer (source lines 66–77) -/

/-- One row of the transformed DataFrame: `Footnotes` and `Period` dropped,
`Month` and `Year-Month` added, `Value` coerced to numeric (`none` = NaN). -/
structure TRow where
  seriesId : String
  year : String
  value : Option ℚ
  month : Int
  yearMonth : String
deriving Repr, DecidableEq

/-- Lines 68–74 applied to one row.  Line 68
(`df['Period'].str.replace('M','').astype(int)`) removes every `'M'` and then
parses the remainder with `int`, raising — hence `none` — when the remainder is
not an integer numeral. -/
def transformRow (r : Row) : Option TRow :=
  (parseIntPy (stripM r.period)).map fun m =>
    { seriesId := r.seriesId, year := r.year, value := toNumeric? r.value,
      month := m, yearMonth := r.year ++ "-" ++ toString m }

/-- The (year, month) part of the sort key of line 76: ascending by year
(a string, compared as Python compares strings), then by month. -/
def yearMonthLe (a b : TRow) : Bool :=
  if a.year = b.year then decide (a.month ≤ b.month) else strLe a.year b.year

/-- The sort key comparison of line 76: ascending by series id, then year,
then month. -/
def leKey (a b : TRow) : Bool :=
  if a.seriesId = b.seriesId then yearMonthLe a b else strLe a.seriesId b.seriesId

/-- Line 76: `sort_values(by=['Series ID','Year','Month'])`.  Sorting a pandas
DataFrame on several columns uses `np.lexsort`, a stable sort, so the embedding
uses a stable merge sort with the same key order. -/
def sortRows (rows : List TRow) : List TRow := rows.mergeSort leKey

/-- Columnwise row conversion: `.astype(int)` raises if any cell fails, so
the whole conversion is `none` as soon as one row's month fails to parse. -/
def traverseRows : List Row → Option (List TRow)
  | [] => some []
  | r :: rs =>
    match transformRow r, traverseRows rs with
    | some tr, some trs => some (tr :: trs)
    | _, _ => none

/-- Lines 66–77: the whole transformation.  `none` when `.astype(int)` raises
on some period remainder (the run would crash there). -/
def transform (rows : List Row) : Option (List TRow) :=
  (traverseRows rows).map sortRows

/-! ### Pipeline with the status check (source lines 31–33) -/

/-- Lines 31–33: on a non-success status the app displays the f-string
`Error in BLS API response: ` followed by
`json_data.get('message','Unknown error')`, and stops. -/
def checkStatus (r : Response) : Except String Unit :=
  if r.status ≠ "REQUEST_SUCCEEDED" then
    Except.error ("Error in BLS API response: " ++ r.message.getD "Unknown error")
  else Except.ok ()

/-- The run up to the transformed table: status check, flatten, transform.
`Except.error` carries the displayed error message; no table is produced. -/
def runPipeline (r : Response) : Except String (List Row × Option (List TRow)) := do
  let _ ← checkStatus r
  let fl := flatten r
  return (fl, transform fl)

/-! ### Presenter (source lines 85–128) -/

/-- Line 89 (the filtering part): rows of the selected series, in table order. -/
def filteredData (t : List TRow) (sel : String) : List TRow :=
  t.filter (fun r => r.seriesId == sel)

/-- The non-missing entries of a value column (pandas aggregations skip NaN). -/
def definedVals (vs : List (Option ℚ)) : List ℚ := vs.filterMap id

/-- Line 103: `filtered_data['Value'].max()` (skips NaN, NaN on empty). -/
def maxMetric (vs : List (Option ℚ)) : Option ℚ := (definedVals vs).max?

/-- Line 104: `filtered_data['Value'].min()` (skips NaN, NaN on empty). -/
def minMetric (vs : List (Option ℚ)) : Option ℚ := (definedVals vs).min?

/-- Line 105: `filtered_data['Value'].mean()` (skips NaN, NaN on empty). -/
def meanMetric (vs : List (Option ℚ)) : Option ℚ :=
  let d := definedVals vs
  if d.isEmpty then none else some (d.sum / (d.length : ℚ))

/-- Python `f"{x:.2f}"` on an exact rational: round to hundredths (ties to
even, as Python's float formatting rounds) and print with two fraction
digits. -/
def formatFix2 (q : ℚ) : String :=
  let x : ℚ := if q < 0 then -q else q
  let s : ℚ := x * 100
  let fl : Int := ⌊s⌋
  let n : Int :=
    if (1 : ℚ) / 2 < s - fl then fl + 1
    else if s - fl < (1 : ℚ) / 2 then fl
    else if fl % 2 = 0 then fl else fl + 1
  let nn : Nat := n.toNat
  let whole : Nat := nn / 100
  let cents : Nat := nn % 100
  (if q < 0 ∧ nn ≠ 0 then "-" else "") ++ toString whole ++ "." ++
    (if cents < 10 then "0" else "") ++ toString cents

/-- Lines 107–109: the string a metric is rendered with (`nan` when the
aggregate is undefined on an all-missing column). -/
def displayMetric (o : Option ℚ) : String :=
  match o with
  | some q => formatFix2 q
  | none => "nan"

/-- The three key metrics of lines 103–109, as displayed. -/
def displayMetrics (vs : List (Option ℚ)) : String × String × String :=
  (displayMetric (maxMetric vs), displayMetric (minMetric vs),
    displayMetric (meanMetric vs))

/-- Line 114: `Series.rolling(window=w).mean()` with the default
`min_periods = w`: at each index the trailing window of `w` cells (fewer near
the start), defined iff it holds `w` non-missing values, and then their mean. -/
def rollingMean (w : Nat) (vs : List (Option ℚ)) : List (Option ℚ) :=
  (List.range vs.length).map fun i =>
    let win := (vs.take (i + 1)).drop (i + 1 - w)
    let vals := definedVals win
    if vals.length = w then some (vals.sum / (w : ℚ)) else none

/-! ### Mutation model for the dashboard (source lines 89 and 114)

`filtered_data` is created by `.copy()` (line 89), so the column assignment of
line 114 writes to that copy, not to `df`.  We model the two DataFrames as a
store of frames addressed by position: frame 0 is `df`, the copy is appended,
and the assignment updates the copy's slot only. -/

structure Frame where
  rows : List TRow
  rollingCol : Option (List (Option ℚ))
deriving Repr, DecidableEq

/-- The store of live DataFrames after the presenter ran: line 89 allocates
the filtered copy, line 114 assigns its `Rolling_Avg` column in place. -/
def dashStore (df : List TRow) (sel : String) (w : Nat) : List Frame :=
  let store0 : List Frame := [⟨df, none⟩]
  let fref := store0.length
  let store1 := store0 ++ [⟨filteredData df sel, none⟩]
  let fd := store1.getD fref ⟨[], none⟩
  store1.set fref { fd with rollingCol := some (rollingMean w (fd.rows.map (fun r => r.value))) }

/-! ### Spec-side definitions

These follow the spec's words, not the source; the theorems compare them with
the definitions above. -/

/-- The closed set of the twelve monthly period codes named by the spec. -/
def monthlyPeriods : List String :=
  ["M01", "M02", "M03", "M04", "M05", "M06", "M07", "M08", "M09", "M10", "M11", "M12"]

/-- Spec side: "the integer formed by stripping the leading M from the period
code" — defined exactly when the code is `'M'` followed by a non-empty digit
string, as `Nat.ofDigits` of those digits. -/
def specMonth (p : String) : Option Nat :=
  match p.data with
  | [] => none
  | c :: ds =>
    if c = 'M' ∧ ds ≠ [] ∧ ds.all Char.isDigit then
      some (Nat.ofDigits 10 ((ds.map (fun d => d.toNat - 48)).reverse))
    else none

/-- Spec side: the arithmetic mean of the values at indices
`[i + 1 - w, i]` (that is, `[max 0 (i - w + 1), i]`) of a value list. -/
def specWindowMean (xs : List ℚ) (w i : Nat) : ℚ :=
  (((List.range' (i + 1 - w) w).map (fun j => xs.getD j 0)).sum) / (w : ℚ)

/-- Spec side: the CSV dump's row count for a given series id (records whose
`Series ID` field equals the id). -/
def csvRowCount (rows : List Row) (sid : String) : Nat :=
  ((csvDataRecords rows).filter (fun rec => rec.headD "" == sid)).length

/-- Spec side: the number of a series' observations that survive the
monthly-period filter, summed over the response's series objects with the
given id. -/
def survivingCount (r : Response) (sid : String) : Nat :=
  ((r.series.filter (fun s => s.seriesID == sid)).map
    (fun s => (s.data.filter (fun it => keepPeriod it.period)).length)).sum

/-! ### Helper lemmas: the lexicographic string comparison is a total order -/

theorem charListLe_total : ∀ as bs : List Char,
    charListLe as bs = true ∨ charListLe bs as = true
  | [], _ => Or.inl rfl
  | _ :: _, [] => Or.inr rfl
  | a :: as, b :: bs => by
    by_cases h : a = b
    · subst h
      simpa [charListLe] using charListLe_total as bs
    · rcases lt_trichotomy a b with h1 | h1 | h1
      · exact Or.inl (by simp [charListLe, h, h1])
      · exact absurd h1 h
      · exact Or.inr (by simp [charListLe, Ne.symm h, h1])

theorem charListLe_trans : ∀ as bs cs : List Char,
    charListLe as bs = true → charListLe bs cs = true → charListLe as cs = true
  | [], _, _, _, _ => rfl
  | _ :: _, [], _, hab, _ => by simp [charListLe] at hab
  | _ :: _, _ :: _, [], _, hbc => by simp [charListLe] at hbc
  | a :: as, b :: bs, c :: cs, hab, hbc => by
    by_cases h1 : a = b <;> by_cases h2 : b = c
    · subst h1; subst h2
      simp only [charListLe, if_pos rfl] at hab hbc ⊢
      exact charListLe_trans as bs cs hab hbc
    · subst h1
      simpa [charListLe, h2] using hbc
    · subst h2
      simpa [charListLe, h1] using hab
    · simp only [charListLe, if_neg h1, if_neg h2, decide_eq_true_eq] at hab hbc
      have h3 : a < c := lt_trans hab hbc
      simp [charListLe, ne_of_lt h3, h3]

theorem charListLe_antisymm : ∀ as bs : List Char,
    charListLe as bs = true → charListLe bs as = true → as = bs
  | [], [], _, _ => rfl
  | [], _ :: _, _, hba => by simp [charListLe] at hba
  | _ :: _, [], hab, _ => by simp [charListLe] at hab
  | a :: as, b :: bs, hab, hba => by
    by_cases h : a = b
    · subst h
      simp only [charListLe, if_pos rfl] at hab hba
      rw [charListLe_antisymm as bs hab hba]
    · simp only [charListLe, if_neg h, if_neg (Ne.symm h), decide_eq_true_eq] at hab hba
      exact absurd (lt_trans hab hba) (lt_irrefl a)

theorem strLe_total (a b : String) : strLe a b = true ∨ strLe b a = true :=
  charListLe_total a.data b.data

theorem strLe_trans {a b c : String} (h1 : strLe a b = true) (h2 : strLe b c = true) :
    strLe a c = true :=
  charListLe_trans a.data b.data c.data h1 h2

theorem strLe_antisymm {a b : String} (h1 : strLe a b = true) (h2 : strLe b a = true) :
    a = b :=
  congrArg String.mk (charListLe_antisymm a.data b.data h1 h2)

/-! ### Helper lemmas: the sort key comparison is total and transitive -/

theorem yearMonthLe_total (a b : TRow) :
    yearMonthLe a b = true ∨ yearMonthLe b a = true := by
  unfold yearMonthLe
  by_cases h : a.year = b.year
  · simp only [h, if_true, eq_self_iff_true, decide_eq_true_eq]
    exact le_total a.month b.month
  · simp only [if_neg h, if_neg (Ne.symm h)]
    exact strLe_total a.year b.year

theorem yearMonthLe_trans {a b c : TRow} (hab : yearMonthLe a b = true)
    (hbc : yearMonthLe b c = true) : yearMonthLe a c = true := by
  unfold yearMonthLe at *
  by_cases h1 : a.year = b.year <;> by_cases h2 : b.year = c.year
  · simp only [h1, h2, if_true, eq_self_iff_true, decide_eq_true_eq] at hab hbc ⊢
    exact le_trans hab hbc
  · have h3 : a.year ≠ c.year := fun hac => h2 (h1 ▸ hac)
    simp only [if_pos h1] at hab
    simp only [if_neg h2] at hbc
    simp only [if_neg h3]
    exact h1 ▸ hbc
  · have h3 : a.year ≠ c.year := fun hac => h1 (h2 ▸ hac)
    simp only [if_neg h1] at hab
    simp only [if_pos h2] at hbc
    simp only [if_neg h3]
    exact h2 ▸ hab
  · simp only [if_neg h1] at hab
    simp only [if_neg h2] at hbc
    by_cases h3 : a.year = c.year
    · exact absurd (strLe_antisymm hab (h3 ▸ hbc)) h1
    · simp only [if_neg h3]
      exact strLe_trans hab hbc

theorem leKey_total (a b : TRow) : leKey a b = true ∨ leKey b a = true := by
  unfold leKey
  by_cases h : a.seriesId = b.seriesId
  · simp only [h, if_pos rfl]
    exact yearMonthLe_total a b
  · simp only [if_neg h, if_neg (Ne.symm h)]
    exact strLe_total a.seriesId b.seriesId

theorem leKey_trans {a b c : TRow} (hab : leKey a b = true)
    (hbc : leKey b c = true) : leKey a c = true := by
  unfold leKey at *
  by_cases h1 : a.seriesId = b.seriesId <;> by_cases h2 : b.seriesId = c.seriesId
  · simp only [if_pos h1] at hab
    simp only [if_pos h2] at hbc
    simp only [if_pos (h1.trans h2)]
    exact yearMonthLe_trans hab hbc
  · have h3 : a.seriesId ≠ c.seriesId := fun hac => h2 (h1 ▸ hac)
    simp only [if_neg h2] at hbc
    simp only [if_neg h3]
    exact h1 ▸ hbc
  · have h3 : a.seriesId ≠ c.seriesId := fun hac => h1 (h2 ▸ hac)
    simp only [if_neg h1] at hab
    simp only [if_neg h3]
    exact h2 ▸ hab
  · simp only [if_neg h1] at hab
    simp only [if_neg h2] at hbc
    by_cases h3 : a.seriesId = c.seriesId
    · exact absurd (strLe_antisymm hab (h3 ▸ hbc)) h1
    · simp only [if_neg h3]
      exact strLe_trans hab hbc

/-! ### Helper lemmas: the Normalizer as filter-then-map -/

theorem filterMap_ite_eq_filter_map {α β : Type} (p : α → Bool) (f : α → β) :
    ∀ l : List α,
      l.filterMap (fun a => if p a then some (f a) else none) = (l.filter p).map f
  | [] => rfl
  | a :: l => by
    by_cases h : p a <;>
      simp [List.filterMap_cons, List.filter_cons, h, filterMap_ite_eq_filter_map p f l]

theorem flattenSeries_eq (s : SeriesData) :
    flattenSeries s =
      (s.data.filter (fun it => keepPeriod it.period)).map (mkRow s.seriesID) :=
  filterMap_ite_eq_filter_map _ _ _

theorem mem_flattenSeries {s : SeriesData} {row : Row} (h : row ∈ flattenSeries s) :
    keepPeriod row.period = true ∧ row.seriesId = s.seriesID := by
  rw [flattenSeries_eq] at h
  obtain ⟨it, hit, rfl⟩ := List.mem_map.mp h
  exact ⟨by simpa [mkRow] using List.of_mem_filter hit, rfl⟩

/-! ### Claim theorems -/

/-- C4 counterexample: at a concrete failing response carrying the server
message "bad key", line 32 displays the prefixed f-string
"Error in BLS API response: bad key", which is not the server-provided
message itself. -/
theorem status_failure_message_not_bare :
    runPipeline (Response.mk "REQUEST_FAILED" (some "bad key") []) =
      Except.error "Error in BLS API response: bad key" ∧
    "Error in BLS API response: bad key" ≠ "bad key" := by
  exact ⟨rfl, by decide⟩

/-- C4 (amended): for every response whose status is not the success marker,
the run halts before producing any table, and the displayed error message is
the constant prefix "Error in BLS API response: " followed by the
server-provided message when present, else by the fixed fallback
"Unknown error". -/
theorem status_failure_halts_prefixed (r : Response)
    (h : r.status ≠ "REQUEST_SUCCEEDED") :
    runPipeline r = Except.error ("Error in BLS API response: " ++
      (match r.message with
        | some m => m
        | none => "Unknown error")) := by
  unfold runPipeline checkStatus
  cases r.message <;> simp [h]

/-- Witness for C4 (amended): a concrete failed response with a server
message halts with exactly the prefixed message. -/
theorem status_failure_halts_prefixed_witness :
    (Response.mk "REQUEST_FAILED" (some "bad key") []).status ≠ "REQUEST_SUCCEEDED" ∧
    runPipeline (Response.mk "REQUEST_FAILED" (some "bad key") []) =
      Except.error ("Error in BLS API response: " ++ "bad key") :=
  ⟨by decide, status_failure_halts_prefixed
    (Response.mk "REQUEST_FAILED" (some "bad key") []) (by decide)⟩

/-- C10: the presenter's derivations write only to the copied filtered frame;
after rendering, the transformed table's frame still holds exactly the
original rows in their original order and no rolling column, while the copy
holds the filtered rows and the new column. -/
theorem presenter_leaves_table_unchanged (df : List TRow) (sel : String) (w : Nat) :
    dashStore df sel w =
      [⟨df, none⟩,
        ⟨filteredData df sel,
          some (rollingMean w ((filteredData df sel).map (fun r => r.value)))⟩] := rfl

/-- C5: a kept observation's row carries the footnote texts (present ones
only) joined with ", ", and an empty footnote list yields the empty string
with no failure. -/
theorem footnotes_joined (s : SeriesData) (it : Item) (hmem : it ∈ s.data)
    (hk : keepPeriod it.period = true) :
    mkRow s.seriesID it ∈ flattenSeries s ∧
    (mkRow s.seriesID it).footnotes =
      String.intercalate ", " (it.footnotes.filterMap id) ∧
    (it.footnotes = [] → (mkRow s.seriesID it).footnotes = "") := by
  refine ⟨?_, rfl, fun h => ?_⟩
  · unfold flattenSeries
    exact List.mem_filterMap.mpr ⟨it, hmem, by simp [hk]⟩
  · simp only [mkRow, joinFootnotes, h, List.filterMap_nil]
    rfl

/-- Witness for C5 at an observation with an empty footnote list. -/
theorem footnotes_joined_witness :
    (Item.mk "2013" "M01" "1.5" []) ∈ [Item.mk "2013" "M01" "1.5" []] ∧
    keepPeriod "M01" = true ∧
    (mkRow "S1" (Item.mk "2013" "M01" "1.5" []) ∈
        flattenSeries (SeriesData.mk "S1" [Item.mk "2013" "M01" "1.5" []]) ∧
      (mkRow "S1" (Item.mk "2013" "M01" "1.5" [])).footnotes =
        String.intercalate ", " (([] : List (Option String)).filterMap id) ∧
      (([] : List (Option String)) = [] →
        (mkRow "S1" (Item.mk "2013" "M01" "1.5" [])).footnotes = "")) :=
  ⟨by decide, by decide,
    footnotes_joined (SeriesData.mk "S1" [Item.mk "2013" "M01" "1.5" []])
      (Item.mk "2013" "M01" "1.5" []) (by decide) (by decide)⟩

/-- C1 counterexample: the filter on line 47 is the lexical interval
`"M01" <= period <= "M12"`, not the twelve-element set — the period code
"M1" is not one of the twelve monthly codes, yet its row is kept in the
flattened table. -/
theorem flatten_keeps_nonmonthly_code :
    (flatten (Response.mk "REQUEST_SUCCEEDED" none
        [SeriesData.mk "S1" [Item.mk "2013" "M1" "100" []]])).map Row.period = ["M1"] ∧
    "M1" ∉ monthlyPeriods := by decide

/-- C1 (amended): a row appears in the flattened table iff its period falls
lexically in the closed interval ["M01", "M12"] (Python string order); all
twelve monthly codes lie in that interval, while "M13" and "S01" are
excluded. -/
theorem flatten_period_interval (s : SeriesData) (it : Item) (hmem : it ∈ s.data) :
    (keepPeriod it.period = true → mkRow s.seriesID it ∈ flattenSeries s) ∧
    (∀ row ∈ flattenSeries s,
      strLe "M01" row.period = true ∧ strLe row.period "M12" = true) ∧
    (∀ p ∈ monthlyPeriods, keepPeriod p = true) ∧
    keepPeriod "M13" = false ∧ keepPeriod "S01" = false := by
  refine ⟨fun hk => ?_, fun row hrow => ?_, by decide, by decide, by decide⟩
  · unfold flattenSeries
    exact List.mem_filterMap.mpr ⟨it, hmem, by simp [hk]⟩
  · have h := (mem_flattenSeries hrow).1
    unfold keepPeriod at h
    exact And.imp_left id (by simpa using h)

/-- The CSV record filter on the first field agrees with counting rows by
series id. -/
theorem csvRowCount_eq_countP (rows : List Row) (sid : String) :
    csvRowCount rows sid = rows.countP (fun row => row.seriesId == sid) := by
  unfold csvRowCount csvDataRecords
  rw [List.filter_map, List.length_map, List.countP_eq_length_filter]
  rfl

/-- Counting one series' flattened rows by id: all of them carry the series'
id, so the count is all-or-nothing. -/
theorem countP_flattenSeries (s : SeriesData) (sid : String) :
    (flattenSeries s).countP (fun row => row.seriesId == sid) =
      if s.seriesID == sid then (s.data.filter (fun it => keepPeriod it.period)).length
      else 0 := by
  rw [flattenSeries_eq, List.countP_map]
  by_cases h : s.seriesID == sid
  · simp only [h, if_true]
    simp [Function.comp, mkRow, h, List.countP_true]
  · simp only [h, if_false]
    simp [Function.comp, mkRow, h]

/-- Summing a guarded map equals mapping over the filtered list. -/
theorem sum_map_ite {α : Type} (p : α → Bool) (g : α → Nat) :
    ∀ l : List α,
      (l.map (fun s => if p s then g s else 0)).sum = ((l.filter p).map g).sum
  | [] => rfl
  | a :: l => by
    by_cases h : p a <;> simp [List.filter_cons, h, sum_map_ite p g l]

/-- C9: for every response and series id, the CSV dump's row count for that
series equals the number of that series' observations that survive the
monthly-period filter, before any transformation. -/
theorem csv_rows_per_series (r : Response) (sid : String) :
    csvRowCount (flatten r) sid = survivingCount r sid := by
  rw [csvRowCount_eq_countP]
  unfold flatten survivingCount
  rw [List.countP_flatten, List.map_map]
  have h1 : r.series.map (List.countP (fun row => row.seriesId == sid) ∘ flattenSeries) =
      r.series.map (fun s =>
        if s.seriesID == sid then (s.data.filter (fun it => keepPeriod it.period)).length
        else 0) :=
    List.map_congr_left (fun s _ => countP_flattenSeries s sid)
  rw [h1, sum_map_ite]

/-- Digit runs parse to the expected accumulator fold. -/
theorem digitsAcc_eq : ∀ (ds : List Char) (acc : Nat), ds.all Char.isDigit = true →
    digitsAcc acc ds = some (ds.foldl (fun n c => 10 * n + (c.toNat - 48)) acc)
  | [], _, _ => rfl
  | c :: ds, acc, h => by
    simp only [List.all_cons, Bool.and_eq_true] at h
    simp only [digitsAcc, h.1, if_true, List.foldl_cons]
    exact digitsAcc_eq ds _ h.2

/-- The digit fold is positional base-10 evaluation. -/
theorem foldl_digits_eq : ∀ (ds : List Char) (acc : Nat),
    ds.foldl (fun n c => 10 * n + (c.toNat - 48)) acc =
      acc * 10 ^ ds.length + Nat.ofDigits 10 ((ds.map (fun c => c.toNat - 48)).reverse)
  | [], acc => by simp
  | c :: ds, acc => by
    simp only [List.foldl_cons, List.length_cons, List.map_cons, List.reverse_cons]
    rw [foldl_digits_eq ds (10 * acc + (c.toNat - 48))]
    rw [Nat.ofDigits_append]
    simp only [Nat.ofDigits_singleton, List.length_reverse, List.length_map]
    ring

/-- Digit characters differ from any non-digit character. -/
theorem isDigit_ne {c x : Char} (h : c.isDigit = true) (hx : x.isDigit = false) :
    c ≠ x := by
  intro hc
  rw [hc, hx] at h
  exact Bool.false_ne_true h

/-- Reduction of `parseIntPy` on an explicit character list. -/
theorem parseIntPy_cons (d : Char) (ds : List Char) :
    parseIntPy (String.mk (d :: ds)) =
      if d = '-' then
        if ds.isEmpty then none else (digitsAcc 0 ds).map (fun n => -(n : Int))
      else if d = '+' then
        if ds.isEmpty then none else (digitsAcc 0 ds).map (fun n => (n : Int))
      else (digitsAcc 0 (d :: ds)).map (fun n => (n : Int)) := rfl

/-- C8: whenever the period code is a leading `M` followed by digits (so that
"the integer formed by stripping the leading M" exists), the Transformer's
derived month — which strips every `M` and parses — equals exactly that
integer. -/
theorem month_from_period (r : Row) (m : Nat) (h : specMonth r.period = some m) :
    ∃ tr, transformRow r = some tr ∧ tr.month = (m : Int) := by
  unfold specMonth at h
  rcases hp : r.period.data with _ | ⟨c, ds⟩ <;> rw [hp] at h
  · exact absurd h (by simp)
  replace h : (if c = 'M' ∧ ds ≠ [] ∧ ds.all Char.isDigit = true then
      some (Nat.ofDigits 10 ((ds.map (fun d => d.toNat - 48)).reverse))
    else none) = some m := h
  by_cases hcond : c = 'M' ∧ ds ≠ [] ∧ ds.all Char.isDigit = true
  case neg => rw [if_neg hcond] at h; exact absurd h (by simp)
  rw [if_pos hcond] at h
  obtain ⟨hM, hne, hdig⟩ := hcond
  have hm : m = Nat.ofDigits 10 ((ds.map (fun d => d.toNat - 48)).reverse) :=
    (Option.some_inj.mp h).symm
  have hstrip : stripM r.period = String.mk ds := by
    unfold stripM
    rw [hp]
    subst hM
    congr 1
    rw [List.filter_cons]
    rw [if_neg (by simp)]
    exact List.filter_eq_self.mpr (fun a ha => by
      simp only [ne_eq, decide_eq_true_eq]
      exact isDigit_ne (List.all_eq_true.mp hdig a ha) (by decide))
  rcases ds with _ | ⟨d, ds'⟩
  · exact absurd rfl hne
  have hd : d.isDigit = true := List.all_eq_true.mp hdig d (by simp)
  have hparse : parseIntPy (stripM r.period) =
      some ((Nat.ofDigits 10 (((d :: ds').map (fun x => x.toNat - 48)).reverse) : Nat) : Int) := by
    rw [hstrip, parseIntPy_cons]
    rw [if_neg (isDigit_ne hd (by decide)), if_neg (isDigit_ne hd (by decide))]
    rw [digitsAcc_eq _ _ hdig, foldl_digits_eq]
    simp
  refine ⟨⟨r.seriesId, r.year, toNumeric? r.value,
      ((Nat.ofDigits 10 (((d :: ds').map (fun x => x.toNat - 48)).reverse) : Nat) : Int),
      r.year ++ "-" ++
        toString ((Nat.ofDigits 10 (((d :: ds').map (fun x => x.toNat - 48)).reverse) : Nat) : Int)⟩,
    ?_, ?_⟩
  · unfold transformRow
    rw [hparse]
    rfl
  · rw [hm]

/-- The row traversal succeeds elementwise when every row succeeds. -/
theorem traverseRows_of_isSome :
    ∀ rows : List Row, (∀ r ∈ rows, (transformRow r).isSome = true) →
      ∃ pre, traverseRows rows = some pre ∧ pre.length = rows.length ∧
        ∀ r ∈ rows, ∃ tr, transformRow r = some tr ∧ tr ∈ pre
  | [], _ => ⟨[], rfl, rfl, by simp⟩
  | r :: rs, h => by
    obtain ⟨tr, htr⟩ := Option.isSome_iff_exists.mp (h r (by simp))
    obtain ⟨pre, hpre, hlen, hmem⟩ :=
      traverseRows_of_isSome rs (fun x hx => h x (by simp [hx]))
    refine ⟨tr :: pre, ?_, by simp [hlen], ?_⟩
    · unfold traverseRows
      rw [htr, hpre]
    · intro x hx
      rcases List.mem_cons.mp hx with rfl | hx2
      · exact ⟨tr, htr, by simp⟩
      · obtain ⟨y, hy1, hy2⟩ := hmem x hx2
        exact ⟨y, hy1, by simp [hy2]⟩

/-- C7: rows whose value does not parse as a number are not dropped and do
not fail the run: as long as every period's month parses (value parsing plays
no role in success), the transform yields exactly one output row per input
row, and an unparseable value becomes the missing marker in its row. -/
theorem value_coercion_recovers (rows : List Row)
    (h : ∀ r ∈ rows, (parseIntPy (stripM r.period)).isSome = true) :
    ∃ ts, transform rows = some ts ∧ ts.length = rows.length ∧
      ∀ r ∈ rows, ∃ tr, transformRow r = some tr ∧ tr ∈ ts ∧
        (toNumeric? r.value = none → tr.value = none) := by
  have h2 : ∀ r ∈ rows, (transformRow r).isSome = true := by
    intro r hr
    have hs := h r hr
    unfold transformRow
    cases hp : parseIntPy (stripM r.period) with
    | none => rw [hp] at hs; exact absurd hs (by simp)
    | some mm => rfl
  obtain ⟨pre, hpre, hlen, hmem⟩ := traverseRows_of_isSome rows h2
  refine ⟨sortRows pre, ?_, ?_, ?_⟩
  · unfold transform
    rw [hpre]
    rfl
  · unfold sortRows
    rw [List.length_mergeSort]
    exact hlen
  · intro r hr
    obtain ⟨tr, htr, htrmem⟩ := hmem r hr
    refine ⟨tr, htr, ?_, ?_⟩
    · unfold sortRows
      exact List.mem_mergeSort.mpr htrmem
    · intro hval
      unfold transformRow at htr
      obtain ⟨mm, _, hmm2⟩ := Option.map_eq_some'.mp htr
      rw [← hmm2]
      simpa using hval

/-- Witness for C7 at a row whose value "N/A" is unparseable. -/
theorem value_coercion_recovers_witness :
    (∀ r ∈ [Row.mk "S1" "2013" "M01" "N/A" ""],
      (parseIntPy (stripM r.period)).isSome = true) ∧
    (∃ ts, transform [Row.mk "S1" "2013" "M01" "N/A" ""] = some ts ∧
      ts.length = [Row.mk "S1" "2013" "M01" "N/A" ""].length ∧
      ∀ r ∈ [Row.mk "S1" "2013" "M01" "N/A" ""], ∃ tr, transformRow r = some tr ∧
        tr ∈ ts ∧ (toNumeric? r.value = none → tr.value = none)) :=
  ⟨by decide, value_coercion_recovers [Row.mk "S1" "2013" "M01" "N/A" ""] (by decide)⟩

/-- Greatest accumulated value is reached by the fold. -/
theorem foldl_max_mem (a : ℚ) : ∀ l : List ℚ, l.foldl max a ∈ a :: l
  | [] => by simp
  | b :: l => by
    rw [List.foldl_cons]
    rcases List.mem_cons.mp (foldl_max_mem (max a b) l) with h | h
    · rw [h]
      rcases max_choice a b with h2 | h2 <;> rw [h2]
      · exact List.mem_cons_self _ _
      · exact List.mem_cons_of_mem _ (List.mem_cons_self _ _)
    · exact List.mem_cons_of_mem _ (List.mem_cons_of_mem _ h)

/-- The fold of `max` bounds the accumulator and every element. -/
theorem le_foldl_max (a : ℚ) : ∀ l : List ℚ,
    a ≤ l.foldl max a ∧ ∀ v ∈ l, v ≤ l.foldl max a
  | [] => ⟨le_refl a, by simp⟩
  | b :: l => by
    obtain ⟨h1, h2⟩ := le_foldl_max (max a b) l
    refine ⟨le_trans (le_max_left a b) h1, ?_⟩
    intro v hv
    rcases List.mem_cons.mp hv with rfl | hv2
    · exact le_trans (le_max_right a v) h1
    · exact h2 v hv2

/-- Least accumulated value is reached by the fold. -/
theorem foldl_min_mem (a : ℚ) : ∀ l : List ℚ, l.foldl min a ∈ a :: l
  | [] => by simp
  | b :: l => by
    rw [List.foldl_cons]
    rcases List.mem_cons.mp (foldl_min_mem (min a b) l) with h | h
    · rw [h]
      rcases min_choice a b with h2 | h2 <;> rw [h2]
      · exact List.mem_cons_self _ _
      · exact List.mem_cons_of_mem _ (List.mem_cons_self _ _)
    · exact List.mem_cons_of_mem _ (List.mem_cons_of_mem _ h)

/-- The fold of `min` is below the accumulator and every element. -/
theorem foldl_min_le (a : ℚ) : ∀ l : List ℚ,
    l.foldl min a ≤ a ∧ ∀ v ∈ l, l.foldl min a ≤ v
  | [] => ⟨le_refl a, by simp⟩
  | b :: l => by
    obtain ⟨h1, h2⟩ := foldl_min_le (min a b) l
    refine ⟨le_trans h1 (min_le_left a b), ?_⟩
    intro v hv
    rcases List.mem_cons.mp hv with rfl | hv2
    · exact le_trans h1 (min_le_right a v)
    · exact h2 v hv2

/-- On a non-empty list, `max?` returns an element bounding all others. -/
theorem max?_spec (l : List ℚ) (h : l ≠ []) :
    ∃ a, l.max? = some a ∧ a ∈ l ∧ ∀ v ∈ l, v ≤ a := by
  rcases l with _ | ⟨a, as⟩
  · exact absurd rfl h
  refine ⟨as.foldl max a, rfl, foldl_max_mem a as, ?_⟩
  intro v hv
  rcases List.mem_cons.mp hv with rfl | hv2
  · exact (le_foldl_max v as).1
  · exact (le_foldl_max a as).2 v hv2

/-- On a non-empty list, `min?` returns an element below all others. -/
theorem min?_spec (l : List ℚ) (h : l ≠ []) :
    ∃ b, l.min? = some b ∧ b ∈ l ∧ ∀ v ∈ l, b ≤ v := by
  rcases l with _ | ⟨a, as⟩
  · exact absurd rfl h
  refine ⟨as.foldl min a, rfl, foldl_min_mem a as, ?_⟩
  intro v hv
  rcases List.mem_cons.mp hv with rfl | hv2
  · exact (foldl_min_le v as).1
  · exact (foldl_min_le a as).2 v hv2

/-- C6: the three summary metrics are the maximum, minimum and arithmetic
mean of the non-missing filtered values, and the spec's example
[10, 20, 30] displays as max 30.00, min 10.00, average 20.00 with exactly
two decimal places. -/
theorem summary_metrics (vs : List (Option ℚ)) (h : definedVals vs ≠ []) :
    (∃ a, maxMetric vs = some a ∧ a ∈ definedVals vs ∧
      ∀ v ∈ definedVals vs, v ≤ a) ∧
    (∃ b, minMetric vs = some b ∧ b ∈ definedVals vs ∧
      ∀ v ∈ definedVals vs, b ≤ v) ∧
    (∃ c, meanMetric vs = some c ∧
      c * ((definedVals vs).length : ℚ) = (definedVals vs).sum) ∧
    displayMetrics (([10, 20, 30] : List ℚ).map some) = ("30.00", "10.00", "20.00") := by
  refine ⟨max?_spec _ h, min?_spec _ h, ?_, ?_⟩
  · have hne : ¬ (definedVals vs).isEmpty = true := by
      simpa [List.isEmpty_iff] using h
    refine ⟨(definedVals vs).sum / ((definedVals vs).length : ℚ), ?_, ?_⟩
    · unfold meanMetric
      rw [if_neg hne]
    · have hlen : ((definedVals vs).length : ℚ) ≠ 0 := by
        simpa [List.length_eq_zero] using h
      exact div_mul_cancel₀ _ hlen
  · unfold displayMetrics maxMetric minMetric meanMetric
    simp [definedVals]
    norm_num
    unfold displayMetric formatFix2
    norm_num
    decide

/-- Witness for C6 at the spec's example values. -/
theorem summary_metrics_witness :
    definedVals (([10, 20, 30] : List ℚ).map some) ≠ [] ∧
    ((∃ a, maxMetric (([10, 20, 30] : List ℚ).map some) = some a ∧
        a ∈ definedVals (([10, 20, 30] : List ℚ).map some) ∧
        ∀ v ∈ definedVals (([10, 20, 30] : List ℚ).map some), v ≤ a) ∧
      (∃ b, minMetric (([10, 20, 30] : List ℚ).map some) = some b ∧
        b ∈ definedVals (([10, 20, 30] : List ℚ).map some) ∧
        ∀ v ∈ definedVals (([10, 20, 30] : List ℚ).map some), b ≤ v) ∧
      (∃ c, meanMetric (([10, 20, 30] : List ℚ).map some) = some c ∧
        c * ((definedVals (([10, 20, 30] : List ℚ).map some)).length : ℚ) =
          (definedVals (([10, 20, 30] : List ℚ).map some)).sum) ∧
      displayMetrics (([10, 20, 30] : List ℚ).map some) = ("30.00", "10.00", "20.00")) :=
  ⟨by simp [definedVals], summary_metrics (([10, 20, 30] : List ℚ).map some)
    (by simp [definedVals])⟩

/-- Defined values of an all-present column are the raw values. -/
theorem definedVals_map_some (l : List ℚ) : definedVals (l.map some) = l := by
  unfold definedVals
  rw [List.filterMap_map]
  simp

/-- A trailing window slice enumerated by explicit indices. -/
theorem take_drop_slice (xs : List ℚ) (w i : Nat) (hw : w ≤ i + 1)
    (hi : i < xs.length) :
    (xs.take (i + 1)).drop (i + 1 - w) =
      (List.range' (i + 1 - w) w).map (fun j => xs.getD j 0) := by
  apply List.ext_getElem
  · simp only [List.length_drop, List.length_take, List.length_map, List.length_range']
    omega
  · intro k h1 h2
    have hk : k < w := by
      simpa only [List.length_map, List.length_range'] using h2
    have hlt : i + 1 - w + k < (xs.take (i + 1)).length := by
      simp only [List.length_take]
      omega
    have hxs : i + 1 - w + k < xs.length := by omega
    rw [List.getElem_drop, List.getElem_take]
    rw [List.getElem_map, List.getElem_range']
    simp only [one_mul]
    rw [List.getD_eq_getElem xs 0 hxs]

/-- C2: for a filtered series of values and a window `w` between 1 and 12,
the rolling average is missing at the first `w - 1` indices, equals the mean
of the `w` values at indices `[i + 1 - w, i]` at every later index `i`, and
on the spec's example `w = 3`, `[10, 20, 30, 40]` it yields
`[missing, missing, 20, 30]`. -/
theorem rolling_average (xs : List ℚ) (w : Nat) (hw1 : 1 ≤ w) (hw12 : w ≤ 12)
    (i : Nat) (hi : i < xs.length) :
    (i + 1 < w → (rollingMean w (xs.map some))[i]? = some none) ∧
    (w ≤ i + 1 → (rollingMean w (xs.map some))[i]? =
      some (some (specWindowMean xs w i))) ∧
    rollingMean 3 (([10, 20, 30, 40] : List ℚ).map some) =
      [none, none, some 20, some 30] := by
  have hlen : (xs.map some).length = xs.length := List.length_map xs some
  have hbody : (rollingMean w (xs.map some))[i]? =
      some (let win := ((xs.map some).take (i + 1)).drop (i + 1 - w)
            let vals := definedVals win
            if vals.length = w then some (vals.sum / (w : ℚ)) else none) := by
    unfold rollingMean
    rw [List.getElem?_map]
    rw [List.getElem?_range (by omega : i < (xs.map some).length)]
    rfl
  refine ⟨fun hlt => ?_, fun hge => ?_, ?_⟩
  · rw [hbody]
    have h0 : i + 1 - w = 0 := by omega
    simp only [h0, List.drop_zero, ← List.map_take, definedVals_map_some,
      List.length_take]
    rw [if_neg (by omega : ¬ min (i + 1) xs.length = w)]
  · rw [hbody]
    simp only [← List.map_take, ← List.map_drop, definedVals_map_some]
    rw [take_drop_slice xs w i hge hi]
    rw [if_pos (by simp [List.length_range'])]
    unfold specWindowMean
    rfl
  · simp [rollingMean, definedVals, List.range_succ]
    norm_num

/-- Witness for C2 at the spec's example, window 3, index 2. -/
theorem rolling_average_witness :
    (1 ≤ 3 ∧ 3 ≤ 12 ∧ 2 < ([10, 20, 30, 40] : List ℚ).length) ∧
    ((2 + 1 < 3 →
        (rollingMean 3 (([10, 20, 30, 40] : List ℚ).map some))[2]? = some none) ∧
      (3 ≤ 2 + 1 →
        (rollingMean 3 (([10, 20, 30, 40] : List ℚ).map some))[2]? =
          some (some (specWindowMean [10, 20, 30, 40] 3 2))) ∧
      rollingMean 3 (([10, 20, 30, 40] : List ℚ).map some) =
        [none, none, some 20, some 30]) :=
  ⟨⟨by decide, by decide, by simp⟩,
    rolling_average [10, 20, 30, 40] 3 (by decide) (by decide) 2 (by simp)⟩

/-- The sort key comparison is total, in the disjunctive Bool form. -/
theorem leKey_total_or (a b : TRow) : (leKey a b || leKey b a) = true := by
  rcases leKey_total a b with h | h <;> simp [h]

/-- The sort key comparison is transitive, in fully applied form. -/
theorem leKey_trans3 :
    ∀ a b c : TRow, leKey a b = true → leKey b c = true → leKey a c = true :=
  fun _ _ _ h1 h2 => leKey_trans h1 h2

/-- C3: the transformed table is sorted ascending by (series id, year,
month): any two rows of the same series are in (year, month) order, and the
sort is stable — pre-sort rows with equal keys keep their relative order in
the output. -/
theorem transformed_sorted (rows : List Row) (ts : List TRow)
    (h : transform rows = some ts) :
    List.Pairwise (fun a b => leKey a b = true) ts ∧
    List.Pairwise (fun a b =>
      a.seriesId = b.seriesId → yearMonthLe a b = true) ts ∧
    (∀ pre, traverseRows rows = some pre →
      ∀ a b : TRow, leKey a b = true → leKey b a = true →
        List.Sublist [a, b] pre → List.Sublist [a, b] ts) := by
  unfold transform at h
  obtain ⟨pre0, hpre0, hsort⟩ := Option.map_eq_some'.mp h
  subst hsort
  refine ⟨?_, ?_, ?_⟩
  · exact @List.sorted_mergeSort TRow leKey leKey_trans3 leKey_total_or pre0
  · refine List.Pairwise.imp ?_
      (@List.sorted_mergeSort TRow leKey leKey_trans3 leKey_total_or pre0)
    intro a b hab hsid
    unfold leKey at hab
    rwa [if_pos hsid] at hab
  · intro pre hpre a b hab hba hsub
    have hpp : pre0 = pre := Option.some_inj.mp (hpre0.symm.trans hpre)
    subst hpp
    exact @List.pair_sublist_mergeSort TRow leKey a b pre0
      leKey_trans3 leKey_total_or hab hsub

/-- Witness for C3 at a concrete one-row table. -/
theorem transformed_sorted_witness :
    transform [Row.mk "S1" "2013" "M01" "x" ""] =
      some [TRow.mk "S1" "2013" none 1 "2013-1"] ∧
    (List.Pairwise (fun a b => leKey a b = true)
        [TRow.mk "S1" "2013" none 1 "2013-1"] ∧
      List.Pairwise (fun a b => a.seriesId = b.seriesId → yearMonthLe a b = true)
        [TRow.mk "S1" "2013" none 1 "2013-1"] ∧
      (∀ pre, traverseRows [Row.mk "S1" "2013" "M01" "x" ""] = some pre →
        ∀ a b : TRow, leKey a b = true → leKey b a = true →
          List.Sublist [a, b] pre →
          List.Sublist [a, b] [TRow.mk "S1" "2013" none 1 "2013-1"])) := by
  have h : transform [Row.mk "S1" "2013" "M01" "x" ""] =
      some [TRow.mk "S1" "2013" none 1 "2013-1"] := by
    have h1 : traverseRows [Row.mk "S1" "2013" "M01" "x" ""] =
        some [TRow.mk "S1" "2013" none 1 "2013-1"] := by decide
    unfold transform
    rw [h1]
    simp [sortRows]
  exact ⟨h, transformed_sorted _ _ h⟩

/-- Witness for C8 at the spec's example period "M08". -/
theorem month_from_period_witness :
    specMonth (Row.mk "S1" "2013" "M08" "1" "").period = some 8 ∧
    (∃ tr, transformRow (Row.mk "S1" "2013" "M08" "1" "") = some tr ∧
      tr.month = ((8 : Nat) : Int)) :=
  ⟨by decide, month_from_period (Row.mk "S1" "2013" "M08" "1" "") 8 (by decide)⟩

/-- Witness for C1 (amended) at a concrete series and kept observation. -/
theorem flatten_period_interval_witness :
    (Item.mk "2013" "M07" "2" []) ∈ [Item.mk "2013" "M07" "2" []] ∧
    ((keepPeriod (Item.mk "2013" "M07" "2" []).period = true →
        mkRow "S1" (Item.mk "2013" "M07" "2" []) ∈
          flattenSeries (SeriesData.mk "S1" [Item.mk "2013" "M07" "2" []])) ∧
      (∀ row ∈ flattenSeries (SeriesData.mk "S1" [Item.mk "2013" "M07" "2" []]),
        strLe "M01" row.period = true ∧ strLe row.period "M12" = true) ∧
      (∀ p ∈ monthlyPeriods, keepPeriod p = true) ∧
      keepPeriod "M13" = false ∧ keepPeriod "S01" = false) :=
  ⟨by decide,
    flatten_period_interval (SeriesData.mk "S1" [Item.mk "2013" "M07" "2" []])
      (Item.mk "2013" "M07" "2" []) (by decide)⟩

end BLS
